import Mathlib

/-!
Verification of the ledger engine of `controle-financeiro-python`
(`src/finance_manager.py`, `src/utils.py`) against its specification.

Shallow embedding conventions:
* Python `float` amounts are modelled as exact rationals (`ℚ`); the
  arithmetic the claims speak about (sums, differences, comparisons) is the
  same term-for-term as the source, only carried out exactly.
* Python `datetime` values are modelled as `Int` timestamps (seconds); the
  only operations the source performs on them are total-order comparisons,
  which `Int` preserves.  `datetime.strptime(s, "%d-%m-%Y")` is modelled by
  `strptimeDMY`, which reproduces CPython's `_strptime` regexes for
  `%d`/`%m`/`%Y` plus the `datetime` constructor's calendar check, and maps
  the parsed civil date to midnight of that day.
* Python `dict` is modelled as an insertion-ordered association list with
  unique keys; assignment is `dictInsert`, lookup is `dictGet?`.
* `pickle.dumps` is modelled as an injective encoding (the encoded value
  itself) and `hashlib.md5(...).hexdigest()` as an ideal corruption-detecting
  digest: two digests are equal exactly when the pickled values are equal.
  This is the digest semantics the spec assigns to the checksum ("detect
  accidental corruption").
* Exceptions caught inside a function are modelled by `Option`/`Except`
  control flow; a function the source guarantees not to throw is total.
-/

namespace CF

/-! ### Python string helpers -/

/-- Python `str.strip()` whitespace set (ASCII part). -/
def isPySpace (c : Char) : Bool :=
  c = ' ' || c = '\t' || c = '\n' || c = '\x0d' || c = '\x0b' || c = '\x0c'

/-- Drop whitespace from both ends of a character list. -/
def stripL (l : List Char) : List Char :=
  ((l.dropWhile isPySpace).reverse.dropWhile isPySpace).reverse

/-- Python `str.strip()`: drop whitespace from both ends. -/
def pyStrip (s : String) : String :=
  String.mk (stripL s.data)

/-- Python `str.lower()` (ASCII letters; the kind keywords are ASCII). -/
def pyLower (s : String) : String :=
  String.mk (s.data.map Char.toLower)

/-! ### Dates: `datetime.strptime(s, "%d-%m-%Y")` -/

def isLeapYear (y : Int) : Bool :=
  y % 4 = 0 && (y % 100 ≠ 0 || y % 400 = 0)

def daysInMonth (y m : Int) : Int :=
  if m = 2 then (if isLeapYear y then 29 else 28)
  else if m = 4 || m = 6 || m = 9 || m = 11 then 30
  else 31

/-- Days since 1970-01-01 of a civil date (the standard days-from-civil
computation, matching `datetime.toordinal` up to the epoch shift). -/
def daysFromCivil (y m d : Int) : Int :=
  let y2 : Int := if m ≤ 2 then y - 1 else y
  let era : Int := (if 0 ≤ y2 then y2 else y2 - 399) / 400
  let yoe : Int := y2 - era * 400
  let mp  : Int := if 2 < m then m - 3 else m + 9
  let doy : Int := (153 * mp + 2) / 5 + d - 1
  let doe : Int := yoe * 365 + yoe / 4 - yoe / 100 + doy
  era * 146097 + doe - 719468

def digitsVal (l : List Char) : Nat :=
  l.foldl (fun a c => a * 10 + (c.toNat - 48)) 0

def allDigits (l : List Char) : Bool :=
  l.all Char.isDigit

/-- `datetime.strptime(s, "%d-%m-%Y")`, returning midnight of the parsed day
as a timestamp (`none` models the `ValueError` the caller catches).
CPython accepts 1-2 digit day in 1..31, 1-2 digit month in 1..12, exactly
4 digits of year, then the `datetime` constructor requires year ≥ 1 and the
day to exist in the month. -/
def strptimeDMY (s : String) : Option Int :=
  match s.data.splitOn '-' with
  | [ds, ms, ys] =>
    if allDigits ds && allDigits ms && allDigits ys
        && 1 ≤ ds.length && ds.length ≤ 2
        && 1 ≤ ms.length && ms.length ≤ 2
        && ys.length = 4 then
      let d : Int := digitsVal ds
      let m : Int := digitsVal ms
      let y : Int := digitsVal ys
      if 1 ≤ d && d ≤ 31 && 1 ≤ m && m ≤ 12 && 1 ≤ y && d ≤ daysInMonth y m then
        some (daysFromCivil y m d * 86400)
      else none
    else none
  | _ => none

/-! ### `Utils.validate_amount` (src/utils.py lines 34-56) -/

inductive AmountError where
  | invalidFormat       -- "Formato numérico inválido" (separator count check)
  | notANumber          -- float() raised ValueError
  | negativeNotAllowed
  | zeroNotAllowed
  | aboveMax
  | belowMin
deriving DecidableEq, Repr

/-- The character class kept by `re.sub(r'[^\d,-]', '', s)`: digits, comma,
hyphen.  Note the regex does NOT keep `.` — dots are removed here. -/
def keepChar (c : Char) : Bool :=
  c.isDigit || c = ',' || c = '-'

def pow10 : Nat → Nat
  | 0 => 1
  | n + 1 => 10 * pow10 n

/-- Python `float(s)` restricted to the strings reachable in
`validate_amount` (digits, at most one `'.'`, possibly `'-'` characters):
optional single leading minus, digits, optional dot, digits, at least one
digit in total, nothing else.  The value is the exact decimal
`± (ip.fr) = ± (ip·10^|fr| + fr) / 10^|fr|`. -/
def pyFloat (s : String) : Option ℚ :=
  let cs := s.data
  let neg : Bool := cs.head? = some '-'
  let cs2 := if neg then cs.tail else cs
  let ip := cs2.takeWhile Char.isDigit
  let rest := cs2.dropWhile Char.isDigit
  let sgn : Int → Int := fun v => if neg then -v else v
  match rest with
  | [] =>
    if ip.isEmpty then none
    else some (Rat.divInt (sgn (digitsVal ip)) 1)
  | '.' :: fr =>
    if allDigits fr && (!ip.isEmpty || !fr.isEmpty) then
      some (Rat.divInt
        (sgn ((digitsVal ip : Int) * (pow10 fr.length : Int) + (digitsVal fr : Int)))
        (pow10 fr.length : Int))
    else none
  | _ => none

instance exceptDecEq {ε α : Type} [DecidableEq ε] [DecidableEq α] :
    DecidableEq (Except ε α) := fun x y =>
  match x, y with
  | .ok a, .ok b =>
    if h : a = b then .isTrue (by rw [h])
    else .isFalse (by intro hc; cases hc; exact h rfl)
  | .error a, .error b =>
    if h : a = b then .isTrue (by rw [h])
    else .isFalse (by intro hc; cases hc; exact h rfl)
  | .ok _, .error _ => .isFalse (by intro hc; cases hc)
  | .error _, .ok _ => .isFalse (by intro hc; cases hc)

/-- `Utils.validate_amount` on textual input, field for field from the
source.  The error constructors stand for the distinct failure messages. -/
def validate_amount (amount : String) (allow_negative : Bool := false)
    (max_value : Option ℚ := none) (min_value : Option ℚ := none)
    (allow_zero : Bool := true) : Except AmountError ℚ :=
  let amount_str := pyStrip amount
  -- re.sub(r'[^\d,-]', '', amount_str)
  let cleaned : List Char := amount_str.data.filter keepChar
  if 1 < cleaned.count '.' || 1 < cleaned.count ',' then
    .error .invalidFormat
  else
    -- separator normalization
    let c2d : Char → Char := fun c => if c = ',' then '.' else c
    let cleaned2 : List Char :=
      if cleaned.contains ',' && cleaned.contains '.' then
        (cleaned.filter (fun c => c ≠ '.')).map c2d
      else if cleaned.contains ',' then
        cleaned.map c2d
      else cleaned
    match pyFloat (String.mk cleaned2) with
    | none => .error .notANumber
    | some v =>
      if !allow_negative && v < 0 then .error .negativeNotAllowed
      else if !allow_zero && v = 0 then .error .zeroNotAllowed
      else match max_value with
      | some mx => if mx < v then .error .aboveMax
        else match min_value with
        | some mn => if v < mn then .error .belowMin else .ok v
        | none => .ok v
      | none => match min_value with
        | some mn => if v < mn then .error .belowMin else .ok v
        | none => .ok v

/-! ### Data model (`FinanceManager.__init__`) -/

/-- A stored transaction dict
`{description, amount, type, category, date}`. -/
structure Transaction where
  description : String
  amount : ℚ
  type : String
  category : String
  date : Int
deriving DecidableEq, Repr, Inhabited

/-- A stored goal dict `{target_amount, target_date, saved_amount, created_at}`. -/
structure Goal where
  target_amount : ℚ
  target_date : Int
  saved_amount : ℚ
  created_at : Int
deriving DecidableEq, Repr

/-- The in-memory state: `self.transactions`, `self.budgets`, `self.goals`.
Python dicts are insertion-ordered association lists here. -/
structure FinanceManager where
  transactions : List Transaction
  budgets : List (String × ℚ)
  goals : List (String × Goal)
deriving DecidableEq, Repr

/-- `FinanceManager()` — the freshly initialized empty ledger. -/
def FinanceManager.empty : FinanceManager := ⟨[], [], []⟩

/-! ### Python dict operations -/

/-- `d[k] = v` on an insertion-ordered dict: overwrite in place if the key
exists, else append. -/
def dictInsert {α : Type} (l : List (String × α)) (k : String) (v : α) :
    List (String × α) :=
  if l.any (fun p => p.1 = k) then
    l.map (fun p => if p.1 = k then (k, v) else p)
  else l ++ [(k, v)]

/-- `d.get(k)` / `d[k]`: the value at the first (unique) matching key. -/
def dictGet? {α : Type} (l : List (String × α)) (k : String) : Option α :=
  (l.find? (fun p => p.1 = k)).map (fun p => p.2)

/-! ### `add_transaction` (lines 15-71) -/

/-- The `date` argument: `datetime` or a `DD-MM-YYYY` string. -/
inductive DateInput where
  | dt (d : Int)
  | str (s : String)
deriving DecidableEq, Repr

/-- One `add_transaction` call's arguments. -/
structure AddReq where
  description : String
  amount : ℚ
  transaction_type : String
  category : String
  date : DateInput
deriving DecidableEq, Repr

/-- Date conversion step of `add_transaction`: a `datetime` is used as is, a
string goes through `strptime` (a parse failure aborts the add). -/
def DateInput.parse : DateInput → Option Int
  | .dt d => some d
  | .str s => strptimeDMY s

/-- The validation/normalization chain of `add_transaction`, in source
order: transaction type, amount, date, description, category.  Returns the
dict that gets appended, or `none` when some check fails (the source prints
and returns `False`). -/
def mkTx (r : AddReq) : Option Transaction :=
  if ¬ (pyLower r.transaction_type = "receita" ∨ pyLower r.transaction_type = "despesa") then
    none
  else if r.amount ≤ 0 then none
  else match r.date.parse with
  | none => none
  | some d =>
    if pyStrip r.description = "" then none
    else if pyStrip r.category = "" then none
    else some ⟨pyStrip r.description, r.amount, pyLower r.transaction_type,
               pyStrip r.category, d⟩

/-- The key order used by `self.transactions.sort(key=lambda x: x['date'])`. -/
def dateLE (a b : Transaction) : Prop := a.date ≤ b.date

instance : DecidableRel dateLE := fun a b => inferInstanceAs (Decidable (a.date ≤ b.date))

instance : IsTotal Transaction dateLE := ⟨fun a b => Int.le_total a.date b.date⟩

instance : IsTrans Transaction dateLE := ⟨fun _ _ _ h h' => Int.le_trans h h'⟩

/-- `list.sort(key=...)` is a stable ascending sort; any stable sort computes
the same list, so it is modelled by stable insertion sort. -/
def sortByDate (l : List Transaction) : List Transaction :=
  List.insertionSort dateLE l

/-- `add_transaction`: validate, append the normalized dict, re-sort by date. -/
def add_transaction (m : FinanceManager) (r : AddReq) : Bool × FinanceManager :=
  match mkTx r with
  | none => (false, m)
  | some t => (true, { m with transactions := sortByDate (m.transactions ++ [t]) })

/-- A sequence of `add_transaction` calls, threaded through the state. -/
def applyAdds (m : FinanceManager) (reqs : List AddReq) : FinanceManager :=
  match reqs with
  | [] => m
  | r :: rs => applyAdds (add_transaction m r).2 rs

/-! ### Balance and budgets (lines 103-142) -/

/-- Spend for a category: sum of expense amounts whose category matches the
budget key exactly (the generator inside `_check_budget_exceeded`). -/
def spentFor (m : FinanceManager) (category : String) : ℚ :=
  ((m.transactions.filter
      (fun t => t.category = category ∧ t.type = "despesa")).map
    Transaction.amount).sum

/-- `_check_budget_exceeded`: for each budgeted category whose spend exceeds
the budget, report `{'gasto', 'orçamento', 'excedido'}`. -/
def check_budget_exceeded (m : FinanceManager) : List (String × ℚ × ℚ × ℚ) :=
  m.budgets.filterMap (fun p =>
    if p.2 < spentFor m p.1 then
      some (p.1, spentFor m p.1, p.2, spentFor m p.1 - p.2)
    else none)

/-- `calculate_balance`: `(receita_total, despesa_total, saldo,
categorias_com_problema)`. -/
def calculate_balance (m : FinanceManager) :
    ℚ × ℚ × ℚ × List (String × ℚ × ℚ × ℚ) :=
  let total_income :=
    ((m.transactions.filter (fun t => t.type = "receita")).map
      Transaction.amount).sum
  let total_expenses :=
    ((m.transactions.filter (fun t => t.type = "despesa")).map
      Transaction.amount).sum
  (total_income, total_expenses, total_income - total_expenses,
   check_budget_exceeded m)

/-! ### `filter_transactions` (lines 144-171)

Python truthiness: `if category:` and `if transaction_type:` skip the
criterion for `None` and for the empty string; `if start_date and end_date:`
requires both to be non-`None` (`datetime` objects are always truthy). -/

def filter_transactions (m : FinanceManager) (category : Option String)
    (start_date end_date : Option Int) (transaction_type : Option String) :
    List Transaction :=
  let f0 := m.transactions
  let f1 := match category with
    | some c => if c ≠ "" then
        f0.filter (fun t => pyLower t.category = pyLower c)
      else f0
    | none => f0
  let f2 := match start_date, end_date with
    | some s, some e => f1.filter (fun t => s ≤ t.date ∧ t.date ≤ e)
    | _, _ => f1
  match transaction_type with
  | some ty => if ty ≠ "" then f2.filter (fun t => t.type = pyLower ty) else f2
  | none => f2

/-! ### `edit_transaction` (lines 273-313)

`transaction = self.transactions[index]` aliases the stored dict, so every
field assignment mutates the store immediately, before later fields are
validated.  Each phase below threads the store state. -/

/-- Replace the stored dict at `i` (the in-place field assignment). -/
def setTx (m : FinanceManager) (i : Nat) (t : Transaction) : FinanceManager :=
  { m with transactions := m.transactions.set i t }

def editTypePhase (m : FinanceManager) (i : Nat)
    (transaction_type : Option String) : Bool × FinanceManager :=
  match transaction_type with
  | none => (true, m)
  | some ty =>
    if ¬ (pyLower ty = "receita" ∨ pyLower ty = "despesa") then (false, m)
    else (true, setTx m i
      { (m.transactions.getD i default) with type := pyLower ty })

def editAmountPhase (m : FinanceManager) (i : Nat) (amount : Option ℚ)
    (transaction_type : Option String) : Bool × FinanceManager :=
  match amount with
  | none => editTypePhase m i transaction_type
  | some a =>
    if a ≤ 0 then (false, m)
    else editTypePhase
      (setTx m i { (m.transactions.getD i default) with amount := a })
      i transaction_type

/-- `edit_transaction(index, description, amount, transaction_type)`. -/
def edit_transaction (m : FinanceManager) (index : Int)
    (description : Option String) (amount : Option ℚ)
    (transaction_type : Option String) : Bool × FinanceManager :=
  if index < 0 ∨ (m.transactions.length : Int) ≤ index then (false, m)
  else
    let i := index.toNat
    match description with
    | none => editAmountPhase m i amount transaction_type
    | some d =>
      if pyStrip d = "" then (false, m)
      else editAmountPhase
        (setTx m i { (m.transactions.getD i default) with description := pyStrip d })
        i amount transaction_type

/-! ### `set_financial_goal` (lines 487-515) -/

/-- `set_financial_goal(goal_name, target_amount, target_date)`.  `now` is
the value of `datetime.now()` during the call. -/
def set_financial_goal (m : FinanceManager) (now : Int) (goal_name : String)
    (target_amount : ℚ) (target_date : String) : Bool × FinanceManager :=
  match strptimeDMY target_date with
  | none => (false, m)
  | some d =>
    if d < now then (false, m)
    else
      let g : Goal := ⟨target_amount, d, 0, now⟩
      (true, { m with goals := dictInsert m.goals goal_name g })

/-! ### Persistence (`save_to_file` lines 357-396, `load_from_file` lines 398-440)

The pickled payloads are modelled structurally.  A transaction as stored in
the file can carry its date as a `datetime` (which `save_to_file` always
produces) or as a string (which `load_from_file` converts via `strptime`).
The MD5-over-pickle digest is modelled as the digested content itself: two
digests agree exactly when the pickled dicts are equal — the ideal
corruption-detecting behavior the spec assigns to the checksum. -/

inductive RawDate where
  | dt (d : Int)
  | str (s : String)
deriving DecidableEq, Repr

structure RawTransaction where
  description : String
  amount : ℚ
  type : String
  category : String
  date : RawDate
deriving DecidableEq, Repr

/-- A pickled dict over the persisted keys, minus `'checksum'`.  A `none`
field models an absent key, so this also covers the dict
`{'transactions': ..., 'budgets': ...}` whose pickling `save_to_file`
digests, and the `{k: v for k, v in data.items() if k != 'checksum'}` dict
whose pickling `load_from_file` digests. -/
structure DictContent where
  transactions : Option (List RawTransaction)
  budgets : Option (List (String × ℚ))
  goals : Option (List (String × Goal))
  version : Option String
deriving DecidableEq, Repr

/-- A stored data file: its content keys plus the optional `'checksum'` key. -/
structure SavedDict where
  content : DictContent
  checksum : Option DictContent
deriving DecidableEq, Repr

/-- The states `load_from_file` can find the file in.  `unreadable` covers an
unopenable file or bytes `pickle.load` rejects; `notADict` covers a pickled
non-dict (and, collapsed with it, payloads whose entries do not have the
shapes the loader touches, all of which raise and are caught alike). -/
inductive FileState where
  | missing
  | unreadable
  | notADict
  | dict (d : SavedDict)
deriving DecidableEq, Repr

def txToRaw (t : Transaction) : RawTransaction :=
  ⟨t.description, t.amount, t.type, t.category, .dt t.date⟩

/-- `save_to_file`: the checksum is MD5 of
`pickle.dumps({'transactions': ..., 'budgets': ...})`; the file holds
`{'transactions', 'budgets', 'goals', 'checksum', 'version'}`. -/
def save_to_file (m : FinanceManager) : SavedDict :=
  let digested : DictContent :=
    { transactions := some (m.transactions.map txToRaw)
      budgets := some m.budgets
      goals := none
      version := none }
  { content :=
      { transactions := some (m.transactions.map txToRaw)
        budgets := some m.budgets
        goals := some m.goals
        version := some "1.0" }
    checksum := some digested }

/-- The date-conversion loop at the end of `load_from_file`: each string date
goes through `strptime`; a failure raises (caught by the outer handler). -/
def convertDates (l : List RawTransaction) : Option (List Transaction) :=
  l.mapM (fun r =>
    match r.date with
    | .dt d => some ⟨r.description, r.amount, r.type, r.category, d⟩
    | .str s => (strptimeDMY s).map
        (fun d => ⟨r.description, r.amount, r.type, r.category, d⟩))

/-- The `if 'checksum' in data:` verification step of `load_from_file`: when
the key is present, recompute the digest over every other key
(`{k: v for k, v in data.items() if k != 'checksum'}`) and compare. -/
def checksumOk (d : SavedDict) : Bool :=
  match d.checksum with
  | some c => d.content = c
  | none => true

/-- `load_from_file`: missing file or any caught error yields `cls()`; with a
present `'checksum'` key the digest is recomputed over every other key and a
mismatch is an error; otherwise the manager is built from
`data.get('transactions', [])`, `data.get('budgets', {})`,
`data.get('goals', {})` with the dates converted. -/
def load_from_file (fs : FileState) : FinanceManager :=
  match fs with
  | .missing => FinanceManager.empty
  | .unreadable => FinanceManager.empty
  | .notADict => FinanceManager.empty
  | .dict d =>
    if checksumOk d then
      match convertDates (d.content.transactions.getD []) with
      | none => FinanceManager.empty
      | some ts =>
        { transactions := ts
          budgets := d.content.budgets.getD []
          goals := d.content.goals.getD [] }
    else FinanceManager.empty

/-! ## Helper lemmas: `pyStrip` -/

theorem dropWhile_of_head_false {p : Char → Bool} {l : List Char}
    (h : ∀ c, l.head? = some c → p c = false) : l.dropWhile p = l := by
  cases l with
  | nil => rfl
  | cons c cs => simp [List.dropWhile_cons, h c rfl]

theorem head_dropWhile_false (p : Char → Bool) (l : List Char) :
    ∀ c, (l.dropWhile p).head? = some c → p c = false := by
  induction l with
  | nil => intro c h; simp at h
  | cons a as ih =>
    intro c h
    by_cases ha : p a
    · rw [List.dropWhile_cons] at h
      simp only [ha, if_true] at h
      exact ih c h
    · rw [List.dropWhile_cons] at h
      simp [ha] at h
      subst h
      simpa using ha

theorem head_prefix_eq {l₁ l₂ : List Char} (h : l₁ <+: l₂) (hne : l₁ ≠ []) :
    l₂.head? = l₁.head? := by
  obtain ⟨t, rfl⟩ := h
  cases l₁ with
  | nil => exact absurd rfl hne
  | cons a as => rfl

/-- `stripL` is idempotent: stripping a stripped list changes nothing. -/
theorem stripL_idem (l : List Char) : stripL (stripL l) = stripL l := by
  unfold stripL
  set u := l.dropWhile isPySpace with hu
  set v := u.reverse.dropWhile isPySpace with hv
  have hv_head : ∀ c, v.head? = some c → isPySpace c = false :=
    head_dropWhile_false isPySpace u.reverse
  have step1 : v.reverse.dropWhile isPySpace = v.reverse := by
    apply dropWhile_of_head_false
    intro c hc
    -- v.reverse is a prefix of u, so its head is u's head, which fails the test
    have hvpre : v.reverse <+: u := by
      have : v <:+ u.reverse := hv ▸ List.dropWhile_suffix isPySpace
      have := List.reverse_prefix.mpr this
      rwa [List.reverse_reverse] at this
    rcases List.eq_nil_or_concat v.reverse with hnil | _
    · rw [hnil] at hc; simp at hc
    · have hne : v.reverse ≠ [] := by
        intro h0
        rw [h0] at hc; simp at hc
      have hhead := head_prefix_eq hvpre hne
      have huh : ∀ c, u.head? = some c → isPySpace c = false :=
        head_dropWhile_false isPySpace l
      exact huh c (by rw [hhead]; exact hc)
  rw [step1, List.reverse_reverse]
  have step2 : v.dropWhile isPySpace = v :=
    dropWhile_of_head_false hv_head
  rw [step2]

theorem pyStrip_idem (s : String) : pyStrip (pyStrip s) = pyStrip s := by
  unfold pyStrip
  exact congrArg String.mk (stripL_idem s.data)

/-- Characters removed by `str.strip()` are not kept by the
`re.sub(r'[^\d,-]', '', ...)` cleanup. -/
theorem isPySpace_not_keep : ∀ c : Char, isPySpace c = true → keepChar c = false := by
  intro c hc
  simp only [isPySpace, Bool.or_eq_true, decide_eq_true_eq] at hc
  rcases hc with ((((h | h) | h) | h) | h) | h <;> subst h <;> rfl

theorem filter_dropWhile {p q : Char → Bool} (h : ∀ c, p c = true → q c = false)
    (l : List Char) : (l.dropWhile p).filter q = l.filter q := by
  induction l with
  | nil => rfl
  | cons c cs ih =>
    by_cases hc : p c
    · rw [List.dropWhile_cons]
      simp only [hc, if_true]
      rw [ih, List.filter_cons]
      simp [h c hc]
    · rw [List.dropWhile_cons]
      simp [hc]

theorem filter_stripL {q : Char → Bool} (h : ∀ c, isPySpace c = true → q c = false)
    (l : List Char) : (stripL l).filter q = l.filter q := by
  unfold stripL
  rw [List.filter_reverse, filter_dropWhile h, List.filter_reverse,
    List.reverse_reverse, filter_dropWhile h]

/-- The cleaned character list of `validate_amount` does not depend on the
initial `strip()`: everything the strip removes, the regex removes too. -/
theorem cleaned_pyStrip (s : String) :
    (pyStrip s).data.filter keepChar = s.data.filter keepChar := by
  unfold pyStrip
  exact filter_stripL isPySpace_not_keep s.data

/-! ## Helper lemmas: stable sorting and reachable stores -/

/-- "Has date `dd`", the predicate along which stability is measured. -/
def onDate (dd : Int) (t : Transaction) : Bool := t.date == dd

/-- `orderedInsert` never reorders the elements of a fixed date: the element
being inserted lands in front of the equal-dated ones it is inserted into
(it only jumps over strictly smaller dates). -/
theorem filter_orderedInsert (dd : Int) (x : Transaction) (l : List Transaction) :
    (List.orderedInsert dateLE x l).filter (onDate dd) =
      if x.date = dd then x :: l.filter (onDate dd) else l.filter (onDate dd) := by
  induction l with
  | nil =>
    by_cases hx : x.date = dd <;>
      simp [List.orderedInsert, List.filter_cons, onDate, hx]
  | cons y ys ih =>
    by_cases hxy : dateLE x y
    · rw [List.orderedInsert, if_pos hxy]
      by_cases hx : x.date = dd <;> simp [List.filter_cons, onDate, hx]
    · rw [List.orderedInsert, if_neg hxy]
      have hyx : y.date < x.date := by
        simpa [dateLE, not_le] using hxy
      rw [List.filter_cons, List.filter_cons]
      by_cases hy : y.date = dd
      · have hx : ¬ x.date = dd := by
          intro hx
          rw [hx, ← hy] at hyx
          exact lt_irrefl _ hyx
        simp [onDate, hy, ih, hx]
      · by_cases hx : x.date = dd <;> simp [onDate, hy, ih, hx]

/-- The re-sort in `add_transaction` is stable: per date, it is the identity. -/
theorem filter_sortByDate (dd : Int) (l : List Transaction) :
    (sortByDate l).filter (onDate dd) = l.filter (onDate dd) := by
  induction l with
  | nil => rfl
  | cons x xs ih =>
    show (List.orderedInsert dateLE x (sortByDate xs)).filter (onDate dd) = _
    rw [filter_orderedInsert]
    by_cases hx : x.date = dd <;> simp [List.filter_cons, onDate, hx, ih]

theorem sorted_sortByDate (l : List Transaction) :
    List.Sorted dateLE (sortByDate l) :=
  List.sorted_insertionSort dateLE l

/-- After any one `add_transaction`, the stored sequence is sorted (when it
already was, which covers the no-op failure case too). -/
theorem add_transaction_sorted (m : FinanceManager) (r : AddReq)
    (h : List.Sorted dateLE m.transactions) :
    List.Sorted dateLE (add_transaction m r).2.transactions := by
  unfold add_transaction
  cases mkTx r with
  | none => exact h
  | some t => exact sorted_sortByDate _

theorem applyAdds_sorted (reqs : List AddReq) (m : FinanceManager)
    (h : List.Sorted dateLE m.transactions) :
    List.Sorted dateLE (applyAdds m reqs).transactions := by
  induction reqs generalizing m with
  | nil => exact h
  | cons r rs ih => exact ih _ (add_transaction_sorted m r h)

/-- Per date, the store after a sequence of adds is the starting store
followed by the successfully inserted transactions, in insertion order. -/
theorem applyAdds_filter (reqs : List AddReq) (m : FinanceManager) (dd : Int) :
    (applyAdds m reqs).transactions.filter (onDate dd) =
      m.transactions.filter (onDate dd) ++
        (reqs.filterMap mkTx).filter (onDate dd) := by
  induction reqs generalizing m with
  | nil => simp [applyAdds]
  | cons r rs ih =>
    show ((applyAdds (add_transaction m r).2 rs).transactions.filter (onDate dd)) = _
    cases hr : mkTx r with
    | none =>
      rw [show (add_transaction m r).2 = m by unfold add_transaction; rw [hr]]
      rw [ih m, List.filterMap_cons, hr]
    | some t =>
      have h2 : (add_transaction m r).2 =
          { m with transactions := sortByDate (m.transactions ++ [t]) } := by
        unfold add_transaction; rw [hr]
      rw [h2, ih, List.filterMap_cons, hr]
      simp only [List.filter_append, filter_sortByDate]
      rw [List.filter_cons, List.append_assoc]
      by_cases ht : onDate dd t <;> simp [ht]

/-- Membership in a reachable store comes from a successful insert. -/
theorem mem_applyAdds (reqs : List AddReq) (m : FinanceManager)
    (t : Transaction) (h : t ∈ (applyAdds m reqs).transactions) :
    t ∈ m.transactions ∨ ∃ r ∈ reqs, mkTx r = some t := by
  induction reqs generalizing m with
  | nil => exact .inl h
  | cons r rs ih =>
    rcases ih (add_transaction m r).2 (by exact h) with hm | ⟨r', hr', ht'⟩
    · cases hr : mkTx r with
      | none =>
        rw [show (add_transaction m r).2 = m by unfold add_transaction; rw [hr]] at hm
        exact .inl hm
      | some t0 =>
        have h2 : (add_transaction m r).2 =
            { m with transactions := sortByDate (m.transactions ++ [t0]) } := by
          unfold add_transaction; rw [hr]
        rw [h2] at hm
        have : t ∈ m.transactions ++ [t0] := by
          have := List.perm_insertionSort dateLE (m.transactions ++ [t0])
          exact this.mem_iff.mp hm
        rcases List.mem_append.mp this with h1 | h1
        · exact .inl h1
        · refine .inr ⟨r, List.mem_cons_self r rs, ?_⟩
          rw [hr]
          simp only [List.mem_singleton] at h1
          rw [h1]
    · exact .inr ⟨r', List.mem_cons_of_mem r hr', ht'⟩

/-- What a successful validation in `add_transaction` guarantees about the
appended dict. -/
theorem mkTx_normalized (r : AddReq) (t : Transaction) (h : mkTx r = some t) :
    t.description = pyStrip r.description ∧ t.amount = r.amount ∧
    t.type = pyLower r.transaction_type ∧ t.category = pyStrip r.category ∧
    (t.type = "receita" ∨ t.type = "despesa") ∧ 0 < t.amount ∧
    t.description ≠ "" ∧ t.category ≠ "" := by
  unfold mkTx at h
  split at h
  · exact absurd h (by simp)
  · split at h
    · exact absurd h (by simp)
    · split at h
      · exact absurd h (by simp)
      · split at h
        · exact absurd h (by simp)
        · split at h
          · exact absurd h (by simp)
          · rename_i h1 h2 x d heq h4 h5
            rw [Option.some.injEq] at h
            subst h
            refine ⟨rfl, rfl, rfl, rfl, not_not.mp h1, ?_, h4, h5⟩
            simpa using h2

/-! ## Claim theorems -/

/-- **C5** (balance correctness): `calculate_balance` returns the sum of
income-kind amounts, the sum of expense-kind amounts, net exactly equal to
their difference, and the exceeded-budgets report delegated to
`_check_budget_exceeded`. -/
theorem c5_balance_correctness (m : FinanceManager) :
    (calculate_balance m).1 =
        ((m.transactions.filter (fun t => t.type = "receita")).map
          Transaction.amount).sum ∧
      (calculate_balance m).2.1 =
        ((m.transactions.filter (fun t => t.type = "despesa")).map
          Transaction.amount).sum ∧
      (calculate_balance m).2.2.1 =
        (calculate_balance m).1 - (calculate_balance m).2.1 ∧
      (calculate_balance m).2.2.2 = check_budget_exceeded m :=
  ⟨rfl, rfl, rfl, rfl⟩

/-- **C6** (sort invariant): every store reachable from the empty store by a
sequence of `add_transaction` calls has its transaction sequence
non-decreasing by date; moreover the re-sort is stable: per date, the stored
sequence lists exactly the successfully inserted transactions in insertion
order. -/
theorem c6_sort_invariant (reqs : List AddReq) :
    List.Sorted dateLE (applyAdds FinanceManager.empty reqs).transactions ∧
      ∀ dd : Int,
        (applyAdds FinanceManager.empty reqs).transactions.filter (onDate dd) =
          (reqs.filterMap mkTx).filter (onDate dd) := by
  constructor
  · exact applyAdds_sorted reqs _ List.sorted_nil
  · intro dd
    have := applyAdds_filter reqs FinanceManager.empty dd
    simpa [FinanceManager.empty] using this

/-- **C7** (budget exceedance): an entry appears in `_check_budget_exceeded`
exactly for a budgeted category whose expense spend (summed over exact,
case-sensitive category matches) strictly exceeds the limit, and then the
reported tuple is `(spent, limit, spent - limit)`. -/
theorem c7_budget_exceedance (m : FinanceManager) (c : String) (s b e : ℚ) :
    (c, s, b, e) ∈ check_budget_exceeded m ↔
      ((c, b) ∈ m.budgets ∧ s = spentFor m c ∧ b < s ∧ e = s - b) := by
  unfold check_budget_exceeded
  rw [List.mem_filterMap]
  constructor
  · rintro ⟨⟨c', b'⟩, hmem, heq⟩
    dsimp only at heq
    by_cases hlt : b' < spentFor m c'
    · rw [if_pos hlt, Option.some.injEq, Prod.mk.injEq, Prod.mk.injEq,
        Prod.mk.injEq] at heq
      obtain ⟨hc, hs, hb, he⟩ := heq
      subst hc; subst hs; subst hb; subst he
      exact ⟨hmem, rfl, hlt, rfl⟩
    · rw [if_neg hlt] at heq
      exact absurd heq (by simp)
  · rintro ⟨hmem, rfl, hlt, rfl⟩
    exact ⟨(c, b), hmem, by simp [hlt]⟩

/-- **C9** (date-bound edge case): the date criterion of
`filter_transactions` fires only when both bounds are supplied; with a lone
start bound or a lone end bound the result is the same as with no date
bounds at all. -/
theorem c9_single_bound_ignored (m : FinanceManager)
    (category transaction_type : Option String) (s e : Int) :
    filter_transactions m category (some s) none transaction_type =
        filter_transactions m category none none transaction_type ∧
      filter_transactions m category none (some e) transaction_type =
        filter_transactions m category none none transaction_type :=
  ⟨rfl, rfl⟩

/-- **C10** (add normalization): a successful `add_transaction` stores the
trimmed description and category, the lowercased kind and the unchanged
(float) amount; an upper-case spelling of a valid kind is accepted; and in
every store reachable by adds each transaction has a lowercase kind among
the two valid kinds, non-empty trimmed description and category, and a
positive amount. -/
theorem c10_add_normalization :
    (∀ r t, mkTx r = some t →
        t.description = pyStrip r.description ∧ t.amount = r.amount ∧
        t.type = pyLower r.transaction_type ∧ t.category = pyStrip r.category) ∧
      (mkTx ⟨"Salario", 5000, "RECEITA", "Renda", .dt 0⟩).isSome = true ∧
      (∀ reqs t, t ∈ (applyAdds FinanceManager.empty reqs).transactions →
        (t.type = "receita" ∨ t.type = "despesa") ∧
        pyStrip t.description = t.description ∧ t.description ≠ "" ∧
        pyStrip t.category = t.category ∧ t.category ≠ "" ∧ 0 < t.amount) := by
  refine ⟨?_, by decide, ?_⟩
  · intro r t h
    obtain ⟨h1, h2, h3, h4, _⟩ := mkTx_normalized r t h
    exact ⟨h1, h2, h3, h4⟩
  · intro reqs t hmem
    rcases mem_applyAdds reqs FinanceManager.empty t hmem with h0 | ⟨r, _, hr⟩
    · exact absurd h0 (by simp [FinanceManager.empty])
    · obtain ⟨h1, _, _, h4, h5, h6, h7, h8⟩ := mkTx_normalized r t hr
      refine ⟨h5, ?_, h7, ?_, h8, h6⟩
      · rw [h1, pyStrip_idem]
      · rw [h4, pyStrip_idem]

/-- Witness for the hypotheses of `c10_add_normalization` at concrete
inputs: a concrete request normalizes as stated, and the store reached by
adding it satisfies the invariant. -/
theorem c10_add_normalization_witness :
    (mkTx ⟨" Cafe ", 5, "Receita", " Alimento ", .dt 3⟩ =
        some ⟨"Cafe", 5, "receita", "Alimento", 3⟩) ∧
      ((Transaction.mk "Cafe" 5 "receita" "Alimento" 3).description =
          pyStrip " Cafe " ∧
        (Transaction.mk "Cafe" 5 "receita" "Alimento" 3).amount = 5 ∧
        (Transaction.mk "Cafe" 5 "receita" "Alimento" 3).type =
          pyLower "Receita" ∧
        (Transaction.mk "Cafe" 5 "receita" "Alimento" 3).category =
          pyStrip " Alimento ") ∧
      (Transaction.mk "Cafe" 5 "receita" "Alimento" 3 ∈
          (applyAdds FinanceManager.empty
            [⟨" Cafe ", 5, "Receita", " Alimento ", .dt 3⟩]).transactions) ∧
      (((Transaction.mk "Cafe" 5 "receita" "Alimento" 3).type = "receita" ∨
          (Transaction.mk "Cafe" 5 "receita" "Alimento" 3).type = "despesa") ∧
        pyStrip (Transaction.mk "Cafe" 5 "receita" "Alimento" 3).description =
          (Transaction.mk "Cafe" 5 "receita" "Alimento" 3).description ∧
        (Transaction.mk "Cafe" 5 "receita" "Alimento" 3).description ≠ "" ∧
        pyStrip (Transaction.mk "Cafe" 5 "receita" "Alimento" 3).category =
          (Transaction.mk "Cafe" 5 "receita" "Alimento" 3).category ∧
        (Transaction.mk "Cafe" 5 "receita" "Alimento" 3).category ≠ "" ∧
        0 < (Transaction.mk "Cafe" 5 "receita" "Alimento" 3).amount) := by
  refine ⟨by decide, ?_, by decide, ?_⟩
  · exact c10_add_normalization.1
      ⟨" Cafe ", 5, "Receita", " Alimento ", .dt 3⟩
      ⟨"Cafe", 5, "receita", "Alimento", 3⟩ (by decide)
  · exact c10_add_normalization.2.2
      [⟨" Cafe ", 5, "Receita", " Alimento ", .dt 3⟩]
      ⟨"Cafe", 5, "receita", "Alimento", 3⟩ (by decide)

/-! ## Persistence lemmas and claims C1, C8 -/

theorem load_dict (d : SavedDict) :
    load_from_file (.dict d) =
      if checksumOk d then
        match convertDates (d.content.transactions.getD []) with
        | none => FinanceManager.empty
        | some ts =>
          ({ transactions := ts
             budgets := d.content.budgets.getD []
             goals := d.content.goals.getD [] } : FinanceManager)
      else FinanceManager.empty := rfl

theorem checksumOk_false {d : SavedDict} {c : DictContent}
    (hc : d.checksum = some c) (hne : d.content ≠ c) : checksumOk d = false := by
  unfold checksumOk
  rw [hc]
  simp [hne]

/-- The digest `save_to_file` stores never matches the digest
`load_from_file` recomputes: the former covers `{transactions, budgets}`,
the latter covers `{transactions, budgets, goals, version}`. -/
theorem checksumOk_save (m : FinanceManager) :
    checksumOk (save_to_file m) = false := by
  apply checksumOk_false (c := ⟨some (m.transactions.map txToRaw), some m.budgets, none, none⟩)
  · rfl
  · intro hcon
    have := congrArg DictContent.version hcon
    simp [save_to_file] at this

/-- **C1** (round-trip, code bug): loading the file produced by
`save_to_file` always yields the fresh empty manager — even for a ledger
with no goals — because `load_from_file` recomputes the digest over every
stored key except `'checksum'` (transactions, budgets, goals, version)
while `save_to_file` digested `{transactions, budgets}` only, so the
stored digest never matches the recomputation. -/
theorem c1_roundtrip_digest_mismatch :
    (∀ m : FinanceManager,
        load_from_file (.dict (save_to_file m)) = FinanceManager.empty) ∧
      load_from_file (.dict (save_to_file
          ⟨[⟨"Salario", 5000, "receita", "Renda", 1704067200⟩], [], []⟩)) ≠
        ⟨[⟨"Salario", 5000, "receita", "Renda", 1704067200⟩], [], []⟩ ∧
      (FinanceManager.mk [⟨"Salario", 5000, "receita", "Renda", 1704067200⟩]
          [] []).goals = [] ∧
      (save_to_file ⟨[⟨"Salario", 5000, "receita", "Renda", 1704067200⟩], [], []⟩).checksum ≠
        some (save_to_file
          ⟨[⟨"Salario", 5000, "receita", "Renda", 1704067200⟩], [], []⟩).content := by
  refine ⟨?_, by decide, by decide, by decide⟩
  intro m
  rw [load_dict, checksumOk_save]
  simp

/-- **C8** (load never fails outward): `load_from_file` is a total function
on file states; it returns the fresh empty manager on a missing file,
unreadable bytes, a non-dict payload, a digest mismatch, and an unparseable
stored date, and in every remaining case it returns the manager built from
the stored collections. -/
theorem c8_load_never_fails :
    load_from_file .missing = FinanceManager.empty ∧
      load_from_file .unreadable = FinanceManager.empty ∧
      load_from_file .notADict = FinanceManager.empty ∧
      (∀ d c, d.checksum = some c → d.content ≠ c →
        load_from_file (.dict d) = FinanceManager.empty) ∧
      (∀ d, convertDates (d.content.transactions.getD []) = none →
        load_from_file (.dict d) = FinanceManager.empty) ∧
      (∀ fs, load_from_file fs = FinanceManager.empty ∨
        ∃ d ts, fs = .dict d ∧
          convertDates (d.content.transactions.getD []) = some ts ∧
          load_from_file fs =
            ⟨ts, d.content.budgets.getD [], d.content.goals.getD []⟩) := by
  refine ⟨rfl, rfl, rfl, ?_, ?_, ?_⟩
  · intro d c hc hne
    rw [load_dict, checksumOk_false hc hne]
    simp
  · intro d hcd
    rw [load_dict]
    by_cases hok : checksumOk d
    · rw [if_pos hok, hcd]
    · rw [if_neg hok]
  · intro fs
    cases fs with
    | missing => exact .inl rfl
    | unreadable => exact .inl rfl
    | notADict => exact .inl rfl
    | dict d =>
      by_cases hok : checksumOk d
      · cases hcd : convertDates (d.content.transactions.getD []) with
        | none =>
          refine .inl ?_
          rw [load_dict, if_pos hok, hcd]
        | some ts =>
          refine .inr ⟨d, ts, rfl, hcd, ?_⟩
          rw [load_dict, if_pos hok, hcd]
      · refine .inl ?_
        rw [load_dict, if_neg hok]

/-- Witness for the hypotheses of `c8_load_never_fails` at a concrete file
state: a dict whose stored digest disagrees with its content loads as the
fresh empty manager, and a dict holding an unparseable string date loads as
the fresh empty manager. -/
theorem c8_load_never_fails_witness :
    ((SavedDict.mk ⟨some [], some [], none, none⟩
          (some ⟨none, none, none, none⟩)).checksum =
        some (⟨none, none, none, none⟩ : DictContent) ∧
      (SavedDict.mk ⟨some [], some [], none, none⟩
          (some ⟨none, none, none, none⟩)).content ≠
        (⟨none, none, none, none⟩ : DictContent) ∧
      load_from_file (.dict (SavedDict.mk ⟨some [], some [], none, none⟩
          (some ⟨none, none, none, none⟩))) = FinanceManager.empty) ∧
      (convertDates ((SavedDict.mk
            ⟨some [⟨"a", 1, "receita", "x", .str "not-a-date"⟩], none, none, none⟩
            none).content.transactions.getD []) = none ∧
        load_from_file (.dict (SavedDict.mk
            ⟨some [⟨"a", 1, "receita", "x", .str "not-a-date"⟩], none, none, none⟩
            none)) = FinanceManager.empty) := by
  refine ⟨⟨rfl, by decide, ?_⟩, by decide, ?_⟩
  · exact c8_load_never_fails.2.2.2.1
      (SavedDict.mk ⟨some [], some [], none, none⟩ (some ⟨none, none, none, none⟩))
      ⟨none, none, none, none⟩ rfl (by decide)
  · exact c8_load_never_fails.2.2.2.2.1
      (SavedDict.mk ⟨some [⟨"a", 1, "receita", "x", .str "not-a-date"⟩], none, none, none⟩ none)
      (by decide)

/-! ## Claim C2: edit atomicity -/

/-- **C2** counterexample: on a one-transaction store,
`edit(0, description="Remedio", amount=-5)` returns failure, yet the store
is mutated — the description has already been overwritten when the amount
check fails, so the edit is not atomic. -/
theorem c2_counterexample :
    (edit_transaction ⟨[⟨"Cafe", 1, "receita", "Alimento", 0⟩], [], []⟩ 0
        (some "Remedio") (some (-5)) none).1 = false ∧
      (edit_transaction ⟨[⟨"Cafe", 1, "receita", "Alimento", 0⟩], [], []⟩ 0
          (some "Remedio") (some (-5)) none).2 ≠
        ⟨[⟨"Cafe", 1, "receita", "Alimento", 0⟩], [], []⟩ ∧
      (edit_transaction ⟨[⟨"Cafe", 1, "receita", "Alimento", 0⟩], [], []⟩ 0
          (some "Remedio") (some (-5)) none).2 =
        ⟨[⟨"Remedio", 1, "receita", "Alimento", 0⟩], [], []⟩ := by
  refine ⟨?_, by decide, ?_⟩ <;> rfl

/-- **C2** amended: `edit_transaction` fails on the first invalid provided
field (validated in the order description, amount, type), but provided
fields validated before it have already been applied.  When the first
provided field is the invalid one — in particular for the spec's own
example, an edit supplying only a non-positive amount — the transaction and
the whole store are unchanged. -/
theorem c2_edit_first_invalid_field (m : FinanceManager) (index : Int) :
    (∀ a : ℚ, a ≤ 0 → ∀ ty,
        edit_transaction m index none (some a) ty = (false, m)) ∧
      (∀ d, pyStrip d = "" → ∀ a ty,
        edit_transaction m index (some d) a ty = (false, m)) ∧
      (∀ ty, ¬ (pyLower ty = "receita" ∨ pyLower ty = "despesa") →
        edit_transaction m index none none (some ty) = (false, m)) ∧
      (∀ d a ty, 0 ≤ index → index < (m.transactions.length : Int) →
        pyStrip d ≠ "" → a ≤ 0 →
        edit_transaction m index (some d) (some a) ty =
          (false, setTx m index.toNat
            { m.transactions.getD index.toNat default with
                description := pyStrip d })) := by
  by_cases hrange : index < 0 ∨ (m.transactions.length : Int) ≤ index
  · refine ⟨?_, ?_, ?_, ?_⟩
    · intro a _ ty
      simp [edit_transaction, hrange]
    · intro d _ a ty
      simp [edit_transaction, hrange]
    · intro ty _
      simp [edit_transaction, hrange]
    · intro d a ty h0 h1 _ _
      exfalso
      rcases hrange with h | h
      · exact absurd h0 (not_le.mpr h)
      · exact absurd h1 (not_lt.mpr h)
  · refine ⟨?_, ?_, ?_, ?_⟩
    · intro a ha ty
      simp [edit_transaction, hrange, editAmountPhase, ha]
    · intro d hd a ty
      simp [edit_transaction, hrange, hd]
    · intro ty hty
      simp [edit_transaction, hrange, editAmountPhase, editTypePhase, hty]
    · intro d a ty _ _ hd ha
      simp [edit_transaction, hrange, hd, editAmountPhase, ha]

/-- Witness for the hypotheses of `c2_edit_first_invalid_field` at concrete
inputs: an amount-only edit with `amount = -5` fails and leaves the
one-transaction store unchanged, and a description-plus-amount edit with
`amount = -5` fails with the new description already applied. -/
theorem c2_edit_first_invalid_field_witness :
    ((-5 : ℚ) ≤ 0 ∧
      edit_transaction ⟨[⟨"Cafe", 1, "receita", "Alimento", 0⟩], [], []⟩ 0
          none (some (-5)) none =
        (false, ⟨[⟨"Cafe", 1, "receita", "Alimento", 0⟩], [], []⟩)) ∧
      ((0 : Int) ≤ 0 ∧ (0 : Int) <
          ((FinanceManager.mk [⟨"Cafe", 1, "receita", "Alimento", 0⟩] []
            []).transactions.length : Int) ∧
        pyStrip "Remedio" ≠ "" ∧ (-5 : ℚ) ≤ 0 ∧
        edit_transaction ⟨[⟨"Cafe", 1, "receita", "Alimento", 0⟩], [], []⟩ 0
            (some "Remedio") (some (-5)) none =
          (false, setTx ⟨[⟨"Cafe", 1, "receita", "Alimento", 0⟩], [], []⟩
            (Int.toNat 0)
            { (FinanceManager.mk [⟨"Cafe", 1, "receita", "Alimento", 0⟩] []
                []).transactions.getD (Int.toNat 0) default with
                description := pyStrip "Remedio" })) := by
  constructor
  · exact ⟨by norm_num,
      (c2_edit_first_invalid_field
        ⟨[⟨"Cafe", 1, "receita", "Alimento", 0⟩], [], []⟩ 0).1 (-5)
        (by norm_num) none⟩
  · refine ⟨by norm_num, by norm_num, by decide, by norm_num, ?_⟩
    exact (c2_edit_first_invalid_field
      ⟨[⟨"Cafe", 1, "receita", "Alimento", 0⟩], [], []⟩ 0).2.2.2 "Remedio" (-5)
      none (by norm_num) (by norm_num) (by decide) (by norm_num)

/-! ## Claim C3: goal creation -/

theorem find_insert_mem {α : Type} (k : String) (v : α) :
    ∀ l : List (String × α), l.any (fun q => q.1 = k) →
      (l.map (fun q => if q.1 = k then (k, v) else q)).find?
          (fun q => q.1 = k) = some (k, v) := by
  intro l
  induction l with
  | nil => intro h; simp at h
  | cons p ps ih =>
    intro h
    by_cases hp : p.1 = k
    · simp [hp]
    · have hps : ps.any (fun q => q.1 = k) := by
        simpa [List.any_cons, hp] using h
      simp [hp, ih hps]

/-- Python dict assignment followed by lookup of the same key returns the
assigned value (whether the key was present or not). -/
theorem dictGet_dictInsert {α : Type} (l : List (String × α)) (k : String)
    (v : α) : dictGet? (dictInsert l k v) k = some v := by
  unfold dictInsert dictGet?
  by_cases h : l.any (fun p => p.1 = k)
  · rw [if_pos h, find_insert_mem k v l h]
    rfl
  · rw [if_neg h]
    have hnone : l.find? (fun p => p.1 = k) = none := by
      rw [List.find?_eq_none]
      intro x hx
      simp only [decide_eq_true_eq]
      intro hxk
      exact h (List.any_eq_true.mpr ⟨x, hx, by simpa using hxk⟩)
    simp [List.find?_append, hnone]

/-- **C3** counterexample: `set_financial_goal` with target amount `-5` and
a valid future date succeeds and stores the negative target — it does not
fail with an invalid-amount error for `target_amount ≤ 0`. -/
theorem c3_counterexample :
    (set_financial_goal FinanceManager.empty 0 "Viagem" (-5)
        "01-01-2100").1 = true ∧
      dictGet? (set_financial_goal FinanceManager.empty 0 "Viagem" (-5)
          "01-01-2100").2.goals "Viagem" =
        some ⟨-5, 4102444800, 0, 0⟩ := by
  constructor <;> decide

/-- **C3** amended: `set_financial_goal` fails when the target date string
does not parse or parses to a date-time before `now`; on success it stores
the goal with `saved_amount = 0` and `created_at = now`, overwriting any
existing goal of the same name.  It performs no validation of the target
amount: any value, non-positive included, is stored as given. -/
theorem c3_goal_validation (m : FinanceManager) (now : Int) (name : String)
    (amt : ℚ) (ds : String) :
    (strptimeDMY ds = none →
        set_financial_goal m now name amt ds = (false, m)) ∧
      (∀ d, strptimeDMY ds = some d → d < now →
        set_financial_goal m now name amt ds = (false, m)) ∧
      (∀ d, strptimeDMY ds = some d → ¬ d < now →
        set_financial_goal m now name amt ds =
          (true, { m with goals := dictInsert m.goals name ⟨amt, d, 0, now⟩ }) ∧
        dictGet? (set_financial_goal m now name amt ds).2.goals name =
          some ⟨amt, d, 0, now⟩) := by
  refine ⟨?_, ?_, ?_⟩
  · intro h
    simp [set_financial_goal, h]
  · intro d hd hlt
    simp [set_financial_goal, hd, hlt]
  · intro d hd hnlt
    have heq : set_financial_goal m now name amt ds =
        (true, { m with goals := dictInsert m.goals name ⟨amt, d, 0, now⟩ }) := by
      simp [set_financial_goal, hd, hnlt]
    exact ⟨heq, by rw [heq]; exact dictGet_dictInsert m.goals name _⟩

/-- Witness for the hypotheses of `c3_goal_validation` at concrete inputs:
a target date of 01-01-2100 is rejected when `now` is later, and accepted
(initializing `saved_amount = 0`, `created_at = now`) when `now` is
earlier. -/
theorem c3_goal_validation_witness :
    (strptimeDMY "01-01-2100" = some 4102444800 ∧ (4102444800 : Int) < 9999999999 ∧
      set_financial_goal FinanceManager.empty 9999999999 "Viagem" 100
          "01-01-2100" = (false, FinanceManager.empty)) ∧
      (¬ (4102444800 : Int) < 0 ∧
        set_financial_goal FinanceManager.empty 0 "Viagem" 100 "01-01-2100" =
          (true, { FinanceManager.empty with
            goals := dictInsert FinanceManager.empty.goals "Viagem"
              ⟨100, 4102444800, 0, 0⟩ }) ∧
        dictGet? (set_financial_goal FinanceManager.empty 0 "Viagem" 100
            "01-01-2100").2.goals "Viagem" = some ⟨100, 4102444800, 0, 0⟩) := by
  refine ⟨⟨by decide, by decide, ?_⟩, by decide, ?_⟩
  · exact (c3_goal_validation FinanceManager.empty 9999999999 "Viagem" 100
      "01-01-2100").2.1 4102444800 (by decide) (by decide)
  · exact (c3_goal_validation FinanceManager.empty 0 "Viagem" 100
      "01-01-2100").2.2 4102444800 (by decide) (by decide)

/-! ## Claim C4: separator normalization -/

/-- **C4** counterexample: the cleanup regex `[^\d,-]` strips every dot
before the separator checks run, so `"1.2.3"` is accepted (as `123`) rather
than rejected for repeated separators, and in `"1,234.56"` the
rightmost-occurring separator `.` is NOT treated as the decimal separator:
the dots vanish and the comma becomes the decimal point, yielding `1.23456`
instead of `1234.56`. -/
theorem c4_counterexample :
    validate_amount "1.2.3" = .ok 123 ∧
      validate_amount "1,234.56" = .ok (mkRat 123456 100000) ∧
      mkRat 123456 100000 = (123456 / 100000 : ℚ) ∧
      (123456 / 100000 : ℚ) ≠ (123456 / 100 : ℚ) := by
  refine ⟨by decide, by decide, ?_, by norm_num⟩
  rw [Rat.mkRat_eq_div]
  norm_num

/-- **C4** amended: `validate_amount` strips every character other than
digits, commas and hyphens — dots included — before any separator logic, so
`.` never acts as a separator and repeated dots are never rejected; the
result is unchanged if all dots are deleted from the input first.  An input
with more than one comma is rejected as invalid format; a single comma
(e.g. `"1234,56"`, `"1.234,56"`) is the decimal separator. -/
theorem c4_separator_normalization :
    (∀ s : String, 1 < (s.data.filter keepChar).count ',' →
        validate_amount s = .error .invalidFormat) ∧
      (∀ s an mx mn az, validate_amount s an mx mn az =
        validate_amount (String.mk (s.data.filter (fun c => c ≠ '.'))) an mx mn az) ∧
      validate_amount "1234,56" = .ok (mkRat 123456 100) ∧
      validate_amount "1.234,56" = .ok (mkRat 123456 100) := by
  refine ⟨?_, ?_, by decide, by decide⟩
  · intro s h
    simp only [validate_amount, cleaned_pyStrip]
    simp [h]
  · intro s an mx mn az
    have hfilter : ((String.mk (s.data.filter (fun c => c ≠ '.'))).data).filter
        keepChar = s.data.filter keepChar := by
      show ((s.data.filter (fun c => c ≠ '.'))).filter keepChar =
        s.data.filter keepChar
      rw [List.filter_filter]
      refine List.filter_congr (fun a _ => ?_)
      by_cases ha : a = '.'
      · subst ha; rfl
      · simp [ha]
    simp only [validate_amount, cleaned_pyStrip, hfilter]

/-- Witness for the hypotheses of `c4_separator_normalization` at concrete
inputs: `"1,2,3"` has two commas after cleanup and is rejected as invalid
format, and deleting the dots of `"1.234,56"` does not change its
validation result. -/
theorem c4_separator_normalization_witness :
    (1 < (("1,2,3".data.filter keepChar).count ',') ∧
      validate_amount "1,2,3" = .error .invalidFormat) ∧
      validate_amount "1.234,56" false none none true =
        validate_amount (String.mk ("1.234,56".data.filter (fun c => c ≠ '.')))
          false none none true := by
  refine ⟨⟨by decide, c4_separator_normalization.1 "1,2,3" (by decide)⟩, ?_⟩
  exact c4_separator_normalization.2.1 "1.234,56" false none none true

end CF
